import Mathlib

/-!
Verification of the fcntl dispatcher of a library OS
(src/libos/src/fs/file_ops/fcntl.rs) against its design document.

The dispatcher (`FcntlCmd.from_raw`, `do_fcntl`) is translated from the
source file.  Its collaborators (the per-process file descriptor table,
the file-object accessors, the advisory lock manager and the user-pointer
validator) are not part of the given source tree; they are modelled from
the design document, as marked on each definition.
-/

/-- Error taxonomy used by the dispatcher.  `EBADF` = BadDescriptor,
`EINVAL` = UnsupportedCommand / InvalidArgument, `EFAULT` = InvalidAddress,
`EAGAIN` = Locked/WouldBlock. -/
inductive Errno where
  | EBADF
  | EINVAL
  | EFAULT
  | EAGAIN
  deriving DecidableEq

/-- Raw (wire-layout) `flock` structure as passed by the caller:
`l_type` is the raw lock-type code (0 = read, 1 = write, 2 = unlock),
`l_whence`/`l_start`/`l_len` describe the byte range, `l_pid` the owner
field (output of test-lock). -/
structure flock where
  l_type : Nat
  l_whence : Nat
  l_start : Int
  l_len : Int
  l_pid : Nat
  deriving DecidableEq

/-- Strongly-typed lock type after validation. -/
inductive FlockType where
  | F_RDLCK
  | F_WRLCK
  | F_UNLCK
  deriving DecidableEq

/-- Modelled from the spec: `Flock::from_c` lock-type validation is not in
the given sources; per the design document, mistyped lock-type values
cause immediate rejection (`InvalidArgument`).  Raw codes are the Linux
values 0/1/2. -/
def FlockType.from_raw (t : Nat) : Except Errno FlockType :=
  if t = 0 then .ok .F_RDLCK
  else if t = 1 then .ok .F_WRLCK
  else if t = 2 then .ok .F_UNLCK
  else .error .EINVAL

/-- Validated lock request (internal form of `flock`). -/
structure Flock where
  l_type : FlockType
  l_whence : Nat
  l_start : Int
  l_len : Int
  l_pid : Nat
  deriving DecidableEq

/-- Modelled from the spec: `Flock::from_c` (conversion from the wire
layout, not in the given sources) validates the lock-type code and keeps
the remaining fields. -/
def Flock.from_c (c : flock) : Except Errno Flock :=
  match FlockType.from_raw c.l_type with
  | .error e => .error e
  | .ok t =>
      .ok { l_type := t, l_whence := c.l_whence, l_start := c.l_start,
            l_len := c.l_len, l_pid := c.l_pid }

/-- Modelled from the spec: the user-pointer validator
(`from_user::check_ptr` / `check_mut_ptr`, not in the given sources).
`canRead addr` / `canWrite addr` tell whether the `flock`-sized byte range
at `addr` lies in memory the caller may read / write; `load addr` is the
dereference, to be performed only after a successful check. -/
structure UserMem where
  canRead : Nat → Bool
  canWrite : Nat → Bool
  load : Nat → flock

/- Linux numeric codes of the recognized fcntl commands (libc crate). -/

def F_DUPFD : Nat := 0
def F_GETFD : Nat := 1
def F_SETFD : Nat := 2
def F_GETFL : Nat := 3
def F_SETFL : Nat := 4
def F_GETLK : Nat := 5
def F_SETLK : Nat := 6
def F_DUPFD_CLOEXEC : Nat := 1030
def FD_CLOEXEC : Nat := 1

/-- Decoded fcntl command (the `FcntlCmd` enum of the source).  `GetLk`
carries the user address together with the structure loaded from it (the
source keeps a checked `&mut flock`); `SetLk` carries the loaded input
structure. -/
inductive FcntlCmd where
  | DupFd (minFd : Nat)
  | DupFdCloexec (minFd : Nat)
  | GetFd
  | SetFd (flags : Nat)
  | GetFl
  | SetFl (flags : Nat)
  | GetLk (addr : Nat) (c : flock)
  | SetLk (c : flock)
  deriving DecidableEq

/-- `FcntlCmd::from_raw` of the source: decodes the raw command code and
64-bit argument.  Descriptor and flag arguments are truncated to 32 bits
(`arg as FileDesc` / `arg as u32`); the two lock commands interpret the
argument as a pointer, validated (write permission for `F_GETLK`, read
permission for `F_SETLK`) before any dereference; unrecognized codes fail
with `EINVAL`. -/
def FcntlCmd.from_raw (cmd : Nat) (arg : Nat) (mem : UserMem) :
    Except Errno FcntlCmd :=
  if cmd = F_DUPFD then .ok (.DupFd (arg % 2 ^ 32))
  else if cmd = F_DUPFD_CLOEXEC then .ok (.DupFdCloexec (arg % 2 ^ 32))
  else if cmd = F_GETFD then .ok .GetFd
  else if cmd = F_SETFD then .ok (.SetFd (arg % 2 ^ 32))
  else if cmd = F_GETFL then .ok .GetFl
  else if cmd = F_SETFL then .ok (.SetFl (arg % 2 ^ 32))
  else if cmd = F_GETLK then
    (if mem.canWrite arg then .ok (.GetLk arg (mem.load arg))
     else .error .EFAULT)
  else if cmd = F_SETLK then
    (if mem.canRead arg then .ok (.SetLk (mem.load arg))
     else .error .EFAULT)
  else .error .EINVAL

/-! ## Advisory lock manager (modelled from the spec, §4.4) -/

/-- One advisory lock record: owner process, write flag, byte range.
`len = 0` is the to-end-of-file sentinel. -/
structure LockRecord where
  owner : Nat
  wr : Bool
  start : Nat
  len : Nat
  deriving DecidableEq

/-- Overlap of the half-open byte ranges `[s1, s1+l1)` and `[s2, s2+l2)`,
where a length of 0 means "to end of file" (unbounded). -/
def rangesOverlap (s1 l1 s2 l2 : Nat) : Bool :=
  (l1 == 0 || s2 < s1 + l1) && (l2 == 0 || s1 < s2 + l2)

/-- Modelled from the spec: the authoritative conflict rule of the lock
manager — two records conflict iff their ranges overlap, they belong to
different owners, and at least one is a write lock. -/
def conflicts (a b : LockRecord) : Bool :=
  a.owner != b.owner && (a.wr || b.wr)
    && rangesOverlap a.start a.len b.start b.len

/-- Modelled from the spec: byte-range resolution of a requested lock.
Only absolute ranges (whence = SEEK_SET) are representable here, since the
given sources carry no file offset; a resolved negative start — or a
negative length, or a non-absolute whence — fails with
`InvalidArgument`. -/
def resolveRange (lk : Flock) : Except Errno (Nat × Nat) :=
  if lk.l_whence ≠ 0 then .error .EINVAL
  else if lk.l_start < 0 then .error .EINVAL
  else if lk.l_len < 0 then .error .EINVAL
  else .ok (lk.l_start.toNat, lk.l_len.toNat)

/-- The pieces of record `r` lying outside the removal range `[s, s+l)`
(`l = 0` meaning unbounded): a left remainder and a right remainder. -/
def carvePiece (r : LockRecord) (s l : Nat) : List LockRecord :=
  if !rangesOverlap r.start r.len s l then [r]
  else
    (if r.start < s then [{ r with len := s - r.start }] else []) ++
    (if l != 0 && (r.len == 0 || s + l < r.start + r.len) then
       [{ r with start := s + l,
                 len := if r.len = 0 then 0 else r.start + r.len - (s + l) }]
     else [])

/-- Modelled from the spec: `release(owner, range)` — remove the portion
of `owner`'s records intersecting the range, splitting a record when the
range lies strictly inside it.  Records of other owners are untouched. -/
def carveOwner (pid s l : Nat) (recs : List LockRecord) : List LockRecord :=
  recs.flatMap (fun r => if r.owner = pid then carvePiece r s l else [r])

/-- Modelled from the spec: `test(requested)` — a pure query returning the
first conflicting record from a different owner, if any. -/
def testAdvisoryLock (pid : Nat) (lk : Flock) (recs : List LockRecord) :
    Except Errno (Option LockRecord) :=
  match resolveRange lk with
  | .error e => .error e
  | .ok (s, l) =>
      let req : LockRecord :=
        { owner := pid, wr := lk.l_type == .F_WRLCK, start := s, len := l }
      .ok (recs.find? (fun r => conflicts req r))

/-- Modelled from the spec: `acquire_or_fail` / `release` — an unlock
request removes the caller's own overlapping portions; a read/write
request fails with `Locked` (`EAGAIN`) when a record of a different owner
conflicts, and otherwise replaces the caller's own overlapping portions
with the new record. -/
def setAdvisoryLock (pid : Nat) (lk : Flock) (recs : List LockRecord) :
    Except Errno (List LockRecord) :=
  match resolveRange lk with
  | .error e => .error e
  | .ok (s, l) =>
      match lk.l_type with
      | .F_UNLCK => .ok (carveOwner pid s l recs)
      | t =>
          let req : LockRecord :=
            { owner := pid, wr := t == .F_WRLCK, start := s, len := l }
          if recs.any (fun r => conflicts req r) then .error .EAGAIN
          else .ok (req :: carveOwner pid s l recs)

/-- Output structure written back by test-lock: "unlocked" (raw type
code 2) when no conflict, otherwise the first conflicting lock's type,
range and owner. -/
def flockAfterTest (orig : flock) (conflict : Option LockRecord) : flock :=
  match conflict with
  | none => { orig with l_type := 2 }
  | some r =>
      { l_type := if r.wr then 1 else 0, l_whence := 0,
        l_start := (r.start : Int), l_len := (r.len : Int), l_pid := r.owner }

/-! ## File descriptor table (modelled from the spec, §4.3) -/

/-- File-table entry: shared reference to a file object (an identifier
into the process state's file-object map) and the close-on-spawn flag. -/
structure Entry where
  file : Nat
  close_on_spawn : Bool
  deriving DecidableEq

/-- The per-process file descriptor table, as an association list from
descriptor numbers to entries (first binding wins). -/
def FileTable := List (Nat × Entry)

/-- Look up a descriptor in the table. -/
def lookupFd (t : FileTable) (fd : Nat) : Option Entry :=
  match t with
  | [] => none
  | (k, e) :: rest => if k = fd then some e else lookupFd rest fd

/-- Whether a descriptor number is currently a key of the table. -/
def containsFd (t : FileTable) (fd : Nat) : Bool :=
  (lookupFd t fd).isSome

/-- Fuelled allocation scan ascending from `m`: step past every value
present among `keys`, erasing one occurrence of each hit so that
`keys.length + 1` units of fuel always reach a free value. -/
def lowestFreeAux : Nat → List Nat → Nat → Nat
  | 0, _, m => m
  | fuel + 1, keys, m =>
      if m ∈ keys then lowestFreeAux fuel (keys.erase m) (m + 1) else m

/-- Modelled from the spec: the allocation scan of `FileTable::dup` —
ascending from `m`, the first value not present among `keys` is the
result. -/
def lowestFree (keys : List Nat) (m : Nat) : Nat :=
  lowestFreeAux (keys.length + 1) keys m

/-- Update the close-on-spawn flag of the entry bound to `fd`. -/
def setEntryFlag (t : FileTable) (fd : Nat) (b : Bool) : FileTable :=
  t.map (fun p => if p.1 = fd then (p.1, { p.2 with close_on_spawn := b }) else p)

/-- Modelled from the spec: `FileTable::dup(fd, min_fd, cloexec)` — fail
with `BadDescriptor` when `fd` is absent; otherwise allocate the lowest
unused descriptor ≥ `min_fd`, bind it to a new entry aliasing the source
file object with close-on-spawn as requested, and return it. -/
def FileTable.dup (t : FileTable) (fd minFd : Nat) (cloexec : Bool) :
    Except Errno (Nat × FileTable) :=
  match lookupFd t fd with
  | none => .error .EBADF
  | some e =>
      let nfd := lowestFree (t.map Prod.fst) minFd
      .ok (nfd, (nfd, { file := e.file, close_on_spawn := cloexec }) :: t)

/-! ## File objects and process state -/

/-- Modelled from the spec: bitmask of the recognized behavioral status
flags (`StatusFlags::from_bits_truncate` drops all other bits); the design
document names non-blocking (0x800) and append (0x400) as the behavioral
flags. -/
def statusFlagsMask : Nat := 0x400 ||| 0x800

/-- Modelled from the spec: the shared file object — mutable behavioral
status flags, the immutable access mode, and the advisory lock records
that live on the object. -/
structure FileObject where
  status_flags : Nat
  access_mode : Nat
  locks : List LockRecord

/-- Per-process state seen by the dispatcher: the calling process's id,
its file descriptor table, and the map from file-object identifiers to
file objects (total, since entries hold shared references that cannot
dangle). -/
structure ProcState where
  pid : Nat
  file_table : FileTable
  files : Nat → FileObject

/-- Replace the file object bound to identifier `i`. -/
def updateFile (fs : Nat → FileObject) (i : Nat) (g : FileObject → FileObject) :
    Nat → FileObject :=
  fun j => if j = i then g (fs j) else fs j

/-- Result of one `do_fcntl` execution: the syscall result, the state
after it, and the list of (address, value) write-backs into caller
memory. -/
structure FcntlOut where
  res : Except Errno Int
  state : ProcState
  writes : List (Nat × flock)

/-- `do_fcntl` of the source: dispatch a decoded command against the
calling process's file table, file objects and lock records. -/
def do_fcntl (st : ProcState) (fd : Nat) (cmd : FcntlCmd) : FcntlOut :=
  match cmd with
  | .DupFd minFd =>
      match FileTable.dup st.file_table fd minFd false with
      | .error e => ⟨.error e, st, []⟩
      | .ok (nfd, t) => ⟨.ok (nfd : Int), { st with file_table := t }, []⟩
  | .DupFdCloexec minFd =>
      match FileTable.dup st.file_table fd minFd true with
      | .error e => ⟨.error e, st, []⟩
      | .ok (nfd, t) => ⟨.ok (nfd : Int), { st with file_table := t }, []⟩
  | .GetFd =>
      match lookupFd st.file_table fd with
      | none => ⟨.error .EBADF, st, []⟩
      | some e =>
          ⟨.ok (if e.close_on_spawn then (FD_CLOEXEC : Int) else 0), st, []⟩
  | .SetFd flags =>
      match lookupFd st.file_table fd with
      | none => ⟨.error .EBADF, st, []⟩
      | some _ =>
          ⟨.ok 0,
           { st with file_table :=
               setEntryFlag st.file_table fd ((flags &&& FD_CLOEXEC) != 0) },
           []⟩
  | .GetFl =>
      match lookupFd st.file_table fd with
      | none => ⟨.error .EBADF, st, []⟩
      | some e =>
          let f := st.files e.file
          ⟨.ok ((f.status_flags ||| f.access_mode : Nat) : Int), st, []⟩
  | .SetFl flags =>
      match lookupFd st.file_table fd with
      | none => ⟨.error .EBADF, st, []⟩
      | some e =>
          let fs := updateFile st.files e.file
            (fun f => { f with status_flags := flags &&& statusFlagsMask })
          ⟨.ok 0, { st with files := fs }, []⟩
  | .GetLk addr c =>
      match lookupFd st.file_table fd with
      | none => ⟨.error .EBADF, st, []⟩
      | some e =>
          match Flock.from_c c with
          | .error er => ⟨.error er, st, []⟩
          | .ok lk =>
              match lk.l_type with
              | .F_UNLCK => ⟨.error .EINVAL, st, []⟩
              | _ =>
                  match testAdvisoryLock st.pid lk (st.files e.file).locks with
                  | .error er => ⟨.error er, st, []⟩
                  | .ok conflict =>
                      ⟨.ok 0, st, [(addr, flockAfterTest c conflict)]⟩
  | .SetLk c =>
      match lookupFd st.file_table fd with
      | none => ⟨.error .EBADF, st, []⟩
      | some e =>
          match Flock.from_c c with
          | .error er => ⟨.error er, st, []⟩
          | .ok lk =>
              match setAdvisoryLock st.pid lk (st.files e.file).locks with
              | .error er => ⟨.error er, st, []⟩
              | .ok recs =>
                  let fs := updateFile st.files e.file
                    (fun f => { f with locks := recs })
                  ⟨.ok 0, { st with files := fs }, []⟩

/-- The duplicate-low command of the chosen variant. -/
def dupCmd (cloexec : Bool) (m : Nat) : FcntlCmd :=
  if cloexec then .DupFdCloexec m else .DupFd m

/-! ## Concrete sample data for the witnesses -/

/-- A sample lock request structure (read lock on bytes 0–99). -/
def demoFlock : flock :=
  { l_type := 0, l_whence := 0, l_start := 0, l_len := 100, l_pid := 0 }

/-- A user memory in which every checked range is accessible. -/
def demoMem : UserMem :=
  { canRead := fun _ => true, canWrite := fun _ => true,
    load := fun _ => demoFlock }

/-- A user memory in which no checked range is accessible. -/
def demoBadMem : UserMem :=
  { canRead := fun _ => false, canWrite := fun _ => false,
    load := fun _ => demoFlock }

/-- A sample file-object map: every identifier carries non-blocking
status flags, access mode 2 and no lock records. -/
def demoFiles : Nat → FileObject :=
  fun _ => { status_flags := 0x800, access_mode := 2, locks := [] }

/-- A sample process state: descriptors 0–3 open, descriptor 3 bound to
file object 7. -/
def demoSt : ProcState :=
  { pid := 1,
    file_table :=
      [(0, { file := 0, close_on_spawn := false }),
       (1, { file := 1, close_on_spawn := false }),
       (2, { file := 2, close_on_spawn := false }),
       (3, { file := 7, close_on_spawn := false })],
    files := demoFiles }

/-! ## Properties of the allocation scan -/

theorem le_lowestFreeAux (fuel : Nat) :
    ∀ (keys : List Nat) (m : Nat), m ≤ lowestFreeAux fuel keys m := by
  induction fuel with
  | zero => intro keys m; simp [lowestFreeAux]
  | succ fuel ih =>
      intro keys m
      rw [lowestFreeAux]
      by_cases h : m ∈ keys
      · rw [if_pos h]
        exact Nat.le_trans (Nat.le_succ m) (ih (keys.erase m) (m + 1))
      · rw [if_neg h]

theorem lowestFreeAux_not_mem (fuel : Nat) :
    ∀ (keys : List Nat) (m : Nat), keys.length < fuel →
      lowestFreeAux fuel keys m ∉ keys := by
  induction fuel with
  | zero => intro keys m h; omega
  | succ fuel ih =>
      intro keys m hlen
      rw [lowestFreeAux]
      by_cases h : m ∈ keys
      · rw [if_pos h]
        intro hmem
        have hlen2 : (keys.erase m).length < fuel := by
          have h1 := List.length_erase_of_mem h
          have h2 : 0 < keys.length := List.length_pos.mpr (List.ne_nil_of_mem h)
          omega
        have hge := le_lowestFreeAux fuel (keys.erase m) (m + 1)
        have hne : lowestFreeAux fuel (keys.erase m) (m + 1) ≠ m := by omega
        exact ih (keys.erase m) (m + 1) hlen2 ((List.mem_erase_of_ne hne).mpr hmem)
      · rw [if_neg h]
        exact h

theorem lowestFreeAux_min (fuel : Nat) :
    ∀ (keys : List Nat) (m k : Nat), m ≤ k → k < lowestFreeAux fuel keys m →
      k ∈ keys := by
  induction fuel with
  | zero => intro keys m k h1 h2; simp [lowestFreeAux] at h2; omega
  | succ fuel ih =>
      intro keys m k h1 h2
      rw [lowestFreeAux] at h2
      by_cases h : m ∈ keys
      · rw [if_pos h] at h2
        rcases Nat.eq_or_lt_of_le h1 with heq | hlt
        · rw [← heq]; exact h
        · exact List.mem_of_mem_erase (ih (keys.erase m) (m + 1) k hlt h2)
      · rw [if_neg h] at h2
        omega

theorem le_lowestFree (keys : List Nat) (m : Nat) : m ≤ lowestFree keys m :=
  le_lowestFreeAux (keys.length + 1) keys m

theorem lowestFree_not_mem (keys : List Nat) (m : Nat) :
    lowestFree keys m ∉ keys :=
  lowestFreeAux_not_mem (keys.length + 1) keys m (Nat.lt_succ_self _)

theorem lowestFree_min (keys : List Nat) (m k : Nat) (h1 : m ≤ k)
    (h2 : k < lowestFree keys m) : k ∈ keys :=
  lowestFreeAux_min (keys.length + 1) keys m k h1 h2

/-! ## Properties of the table lookup -/

theorem containsFd_iff_mem (t : FileTable) (n : Nat) :
    containsFd t n = true ↔ n ∈ t.map Prod.fst := by
  induction t with
  | nil => simp [containsFd, lookupFd]
  | cons p rest ih =>
      obtain ⟨k, e⟩ := p
      by_cases hk : k = n
      · subst hk
        simp [containsFd, lookupFd]
      · simp only [containsFd, lookupFd, if_neg hk, List.map_cons, List.mem_cons]
        rw [← containsFd]
        constructor
        · intro h; exact Or.inr (ih.mp h)
        · intro h
          rcases h with h | h
          · exact absurd h.symm hk
          · exact ih.mpr h

theorem lookupFd_setEntryFlag (t : FileTable) (fd : Nat) (b : Bool) :
    ∀ e : Entry, lookupFd t fd = some e →
      lookupFd (setEntryFlag t fd b) fd = some { e with close_on_spawn := b } := by
  induction t with
  | nil => intro e h; simp [lookupFd] at h
  | cons p rest ih =>
      intro e h
      obtain ⟨k, e0⟩ := p
      by_cases hk : k = fd
      · subst hk
        simp only [lookupFd, if_pos rfl] at h
        cases h
        have hs : setEntryFlag ((k, e) :: rest) k b
            = (k, { e with close_on_spawn := b }) :: setEntryFlag rest k b := by
          simp [setEntryFlag]
        rw [hs]
        simp [lookupFd]
      · simp only [lookupFd, if_neg hk] at h
        have hs : setEntryFlag ((k, e0) :: rest) fd b
            = (k, e0) :: setEntryFlag rest fd b := by
          simp [setEntryFlag, hk]
        rw [hs]
        simp only [lookupFd, if_neg hk]
        exact ih e h

/-! ## Claims about the decoder -/

/-- Claim C2: for the test-lock and set-lock commands, decoding interprets
the raw argument as a pointer and validates it (write permission for
test-lock, read permission for set-lock) before any dereference; whenever
the byte range fails validation, decoding fails with `InvalidAddress`
(`EFAULT`), independently of the contents of memory. -/
theorem from_raw_lock_validates (arg : Nat) (mem : UserMem) :
    (mem.canWrite arg = false →
      FcntlCmd.from_raw F_GETLK arg mem = .error .EFAULT) ∧
    (mem.canRead arg = false →
      FcntlCmd.from_raw F_SETLK arg mem = .error .EFAULT) := by
  constructor <;> intro h <;>
    simp [FcntlCmd.from_raw, F_DUPFD, F_DUPFD_CLOEXEC, F_GETFD, F_SETFD,
      F_GETFL, F_SETFL, F_GETLK, F_SETLK, h]

/-- Witness for C2: a concrete inaccessible address is rejected on both
lock commands. -/
theorem from_raw_lock_validates_w :
    FcntlCmd.from_raw F_GETLK 4096 demoBadMem = .error .EFAULT ∧
    FcntlCmd.from_raw F_SETLK 4096 demoBadMem = .error .EFAULT :=
  ⟨(from_raw_lock_validates 4096 demoBadMem).1 rfl,
   (from_raw_lock_validates 4096 demoBadMem).2 rfl⟩

/-- Claim C3: every numeric command code outside the recognized set of
eight fails decoding with `UnsupportedCommand` (`EINVAL`), for every
argument value and every memory. -/
theorem from_raw_unsupported (cmd arg : Nat) (mem : UserMem)
    (h : cmd ∉ [F_DUPFD, F_DUPFD_CLOEXEC, F_GETFD, F_SETFD, F_GETFL,
                F_SETFL, F_GETLK, F_SETLK]) :
    FcntlCmd.from_raw cmd arg mem = .error .EINVAL := by
  simp only [List.mem_cons, List.not_mem_nil, or_false, not_or] at h
  obtain ⟨h0, h1, h2, h3, h4, h5, h6, h7⟩ := h
  simp [FcntlCmd.from_raw, h0, h1, h2, h3, h4, h5, h6, h7]

/-- Witness for C3: command code 7 (`F_SETOWN` on Linux) is rejected. -/
theorem from_raw_unsupported_w :
    FcntlCmd.from_raw 7 0 demoMem = .error .EINVAL :=
  from_raw_unsupported 7 0 demoMem (by decide)

/-- Claim C9: decoding never fails for the six commands that carry no
structured payload — for every argument and memory each of them decodes
successfully; only the two lock commands and unrecognized codes can fail. -/
theorem from_raw_nonlock_total (arg : Nat) (mem : UserMem) :
    (∃ c, FcntlCmd.from_raw F_DUPFD arg mem = .ok c) ∧
    (∃ c, FcntlCmd.from_raw F_DUPFD_CLOEXEC arg mem = .ok c) ∧
    (∃ c, FcntlCmd.from_raw F_GETFD arg mem = .ok c) ∧
    (∃ c, FcntlCmd.from_raw F_SETFD arg mem = .ok c) ∧
    (∃ c, FcntlCmd.from_raw F_GETFL arg mem = .ok c) ∧
    (∃ c, FcntlCmd.from_raw F_SETFL arg mem = .ok c) :=
  ⟨⟨_, rfl⟩, ⟨_, rfl⟩, ⟨_, rfl⟩, ⟨_, rfl⟩, ⟨_, rfl⟩, ⟨_, rfl⟩⟩

/-- Claim C10: for duplicate-low, duplicate-low-cloexec,
set-descriptor-flags and set-status-flags the decoder truncates the raw
argument to its low 32 bits: congruent arguments decode identically. -/
theorem from_raw_truncates (arg arg2 : Nat) (mem : UserMem)
    (h : arg % 2 ^ 32 = arg2 % 2 ^ 32) :
    FcntlCmd.from_raw F_DUPFD arg mem = FcntlCmd.from_raw F_DUPFD arg2 mem ∧
    FcntlCmd.from_raw F_DUPFD_CLOEXEC arg mem
      = FcntlCmd.from_raw F_DUPFD_CLOEXEC arg2 mem ∧
    FcntlCmd.from_raw F_SETFD arg mem = FcntlCmd.from_raw F_SETFD arg2 mem ∧
    FcntlCmd.from_raw F_SETFL arg mem = FcntlCmd.from_raw F_SETFL arg2 mem := by
  refine ⟨?_, ?_, ?_, ?_⟩ <;>
    simp only [FcntlCmd.from_raw, F_DUPFD, F_DUPFD_CLOEXEC, F_GETFD, F_SETFD,
      F_GETFL, F_SETFL] <;>
    norm_num <;> omega

/-- Witness for C10: `2^32 + 5` and `5` decode to the same requests. -/
theorem from_raw_truncates_w :
    FcntlCmd.from_raw F_DUPFD (2 ^ 32 + 5) demoMem
      = FcntlCmd.from_raw F_DUPFD 5 demoMem ∧
    FcntlCmd.from_raw F_DUPFD_CLOEXEC (2 ^ 32 + 5) demoMem
      = FcntlCmd.from_raw F_DUPFD_CLOEXEC 5 demoMem ∧
    FcntlCmd.from_raw F_SETFD (2 ^ 32 + 5) demoMem
      = FcntlCmd.from_raw F_SETFD 5 demoMem ∧
    FcntlCmd.from_raw F_SETFL (2 ^ 32 + 5) demoMem
      = FcntlCmd.from_raw F_SETFL 5 demoMem :=
  from_raw_truncates (2 ^ 32 + 5) 5 demoMem (by decide)

/-! ## Claims about command execution -/

/-- Claim C5: for every descriptor present in the table, get-status-flags
returns exactly the bitwise-or of the referenced file object's behavioral
status flags and its fixed access-mode value. -/
theorem fcntl_getfl_or (st : ProcState) (fd : Nat) (e : Entry)
    (h : lookupFd st.file_table fd = some e) :
    (do_fcntl st fd .GetFl).res =
      .ok ((((st.files e.file).status_flags
              ||| (st.files e.file).access_mode : Nat) : Int)) := by
  simp [do_fcntl, h]

/-- Witness for C5: on the sample state, descriptor 3 reports
`0x800 ||| 2`. -/
theorem fcntl_getfl_or_w :
    (do_fcntl demoSt 3 .GetFl).res = .ok ((0x800 ||| 2 : Nat) : Int) :=
  fcntl_getfl_or demoSt 3 { file := 7, close_on_spawn := false } rfl

/-- Claim C6: for every descriptor present in the table and every supplied
bitmask, set-status-flags replaces the referenced file object's behavioral
flags with the bitmask truncated to the recognized status-flag bits, and
returns zero. -/
theorem fcntl_setfl_truncates (st : ProcState) (fd f : Nat) (e : Entry)
    (h : lookupFd st.file_table fd = some e) :
    (do_fcntl st fd (.SetFl f)).res = .ok 0 ∧
    ((do_fcntl st fd (.SetFl f)).state.files e.file).status_flags
      = f &&& statusFlagsMask := by
  constructor <;> simp [do_fcntl, h, updateFile]

/-- Witness for C6: setting `0xFFF` on descriptor 3 of the sample state
stores exactly `0xFFF &&& statusFlagsMask`. -/
theorem fcntl_setfl_truncates_w :
    (do_fcntl demoSt 3 (.SetFl 0xFFF)).res = .ok 0 ∧
    ((do_fcntl demoSt 3 (.SetFl 0xFFF)).state.files 7).status_flags
      = 0xFFF &&& statusFlagsMask :=
  fcntl_setfl_truncates demoSt 3 0xFFF { file := 7, close_on_spawn := false } rfl

/-- Claim C7: after set-descriptor-flags with bitmask `f` (which returns
zero), get-descriptor-flags on the same descriptor returns the dedicated
close-on-exec bit exactly when `f` contains it and `0` otherwise; no other
bit of `f`, and nothing of the file object's status flags, influences the
result. -/
theorem fcntl_setfd_getfd (st : ProcState) (fd f : Nat) (e : Entry)
    (h : lookupFd st.file_table fd = some e) :
    (do_fcntl st fd (.SetFd f)).res = .ok 0 ∧
    (do_fcntl (do_fcntl st fd (.SetFd f)).state fd .GetFd).res =
      .ok (if f &&& FD_CLOEXEC ≠ 0 then (FD_CLOEXEC : Int) else 0) := by
  have h2 := lookupFd_setEntryFlag st.file_table fd ((f &&& FD_CLOEXEC) != 0) e h
  constructor
  · simp [do_fcntl, h]
  · simp only [do_fcntl, h, h2]
    by_cases hb : f &&& FD_CLOEXEC = 0
    · simp [hb]
    · simp [hb]

/-- Witness for C7: setting flags `0xFF` (which contains the bit) on
descriptor 3 of the sample state makes get-descriptor-flags report 1. -/
theorem fcntl_setfd_getfd_w :
    (do_fcntl demoSt 3 (.SetFd 0xFF)).res = .ok 0 ∧
    (do_fcntl (do_fcntl demoSt 3 (.SetFd 0xFF)).state 3 .GetFd).res =
      .ok (if 0xFF &&& FD_CLOEXEC ≠ 0 then (FD_CLOEXEC : Int) else 0) :=
  fcntl_setfd_getfd demoSt 3 0xFF { file := 7, close_on_spawn := false } rfl

/-- Claim C4: for every open descriptor, a test-lock request whose lock
type is "unlock" fails with `InvalidArgument`, the state is untouched and
nothing is written back to caller memory (so no lock-manager call took
effect). -/
theorem fcntl_getlk_unlock_rejected (st : ProcState) (fd addr : Nat)
    (c : flock) (e : Entry) (hfd : lookupFd st.file_table fd = some e)
    (ht : c.l_type = 2) :
    do_fcntl st fd (.GetLk addr c) = ⟨.error .EINVAL, st, []⟩ := by
  simp [do_fcntl, hfd, Flock.from_c, FlockType.from_raw, ht]

/-- Witness for C4: a concrete unlock-typed test-lock on descriptor 3 of
the sample state is rejected with `EINVAL`. -/
theorem fcntl_getlk_unlock_rejected_w :
    do_fcntl demoSt 3
        (.GetLk 4096 { l_type := 2, l_whence := 0, l_start := 0,
                       l_len := 10, l_pid := 0 })
      = ⟨.error .EINVAL, demoSt, []⟩ :=
  fcntl_getlk_unlock_rejected demoSt 3 4096
    { l_type := 2, l_whence := 0, l_start := 0, l_len := 10, l_pid := 0 }
    { file := 7, close_on_spawn := false } rfl rfl

/-- Claim C8: whenever execution of any command fails (with any error of
the taxonomy), the file descriptor table, the close-on-spawn flags, the
file objects' status flags and the advisory lock records — the whole
process state — are left unchanged, and nothing is written back into
caller memory. -/
theorem fcntl_error_unchanged (st : ProcState) (fd : Nat) (cmd : FcntlCmd)
    (er : Errno) (h : (do_fcntl st fd cmd).res = .error er) :
    (do_fcntl st fd cmd).state = st ∧ (do_fcntl st fd cmd).writes = [] := by
  cases cmd <;> simp only [do_fcntl] at h ⊢ <;>
    (repeat' split at h) <;> simp_all

/-- Witness for C8: a failing get-descriptor-flags on a closed descriptor
leaves the sample state untouched. -/
theorem fcntl_error_unchanged_w :
    (do_fcntl demoSt 99 .GetFd).state = demoSt ∧
    (do_fcntl demoSt 99 .GetFd).writes = [] :=
  fcntl_error_unchanged demoSt 99 .GetFd .EBADF rfl

/-- Claim C1: for every table, descriptor and minimum, the duplicate-low
commands return the smallest integer ≥ the minimum that is not currently a
key of the table (never a smaller free slot), fail with `BadDescriptor`
when the source descriptor is absent, and set the new entry's
close-on-spawn flag exactly when the cloexec variant was requested; the
new entry aliases the source entry's file object. -/
theorem fcntl_dup_lowest (st : ProcState) (fd m : Nat) (cloexec : Bool) :
    match lookupFd st.file_table fd with
    | none =>
        (do_fcntl st fd (dupCmd cloexec m)).res = .error .EBADF ∧
        (do_fcntl st fd (dupCmd cloexec m)).state = st
    | some e =>
        (do_fcntl st fd (dupCmd cloexec m)).res =
          .ok ((lowestFree (st.file_table.map Prod.fst) m : Nat) : Int) ∧
        m ≤ lowestFree (st.file_table.map Prod.fst) m ∧
        containsFd st.file_table (lowestFree (st.file_table.map Prod.fst) m)
          = false ∧
        (∀ k, m ≤ k → k < lowestFree (st.file_table.map Prod.fst) m →
          containsFd st.file_table k = true) ∧
        lookupFd (do_fcntl st fd (dupCmd cloexec m)).state.file_table
            (lowestFree (st.file_table.map Prod.fst) m)
          = some { file := e.file, close_on_spawn := cloexec } := by
  cases hl : lookupFd st.file_table fd with
  | none =>
      refine ⟨?_, ?_⟩ <;>
        cases cloexec <;> simp [dupCmd, do_fcntl, FileTable.dup, hl]
  | some e =>
      refine ⟨?_, le_lowestFree _ m, ?_, ?_, ?_⟩
      · cases cloexec <;> simp [dupCmd, do_fcntl, FileTable.dup, hl]
      · rw [Bool.eq_false_iff]
        intro hc
        exact lowestFree_not_mem (st.file_table.map Prod.fst) m
          ((containsFd_iff_mem _ _).mp hc)
      · intro k h1 h2
        exact (containsFd_iff_mem _ _).mpr
          (lowestFree_min (st.file_table.map Prod.fst) m k h1 h2)
      · cases cloexec <;> simp [dupCmd, do_fcntl, FileTable.dup, hl, lookupFd]

/-- Witness for C1: duplicating descriptor 3 of the sample state (keys
0–3) with minimum 0 yields descriptor 4, aliasing file object 7, with
close-on-spawn set by the cloexec variant. -/
theorem fcntl_dup_lowest_w :
    (do_fcntl demoSt 3 (dupCmd true 0)).res = .ok ((4 : Nat) : Int) ∧
    lookupFd (do_fcntl demoSt 3 (dupCmd true 0)).state.file_table 4
      = some { file := 7, close_on_spawn := true } := by
  have h := fcntl_dup_lowest demoSt 3 0 true
  exact ⟨h.1, h.2.2.2.2⟩
